import Mathlib

/-!
Shallow embedding of the Game of Life engine (`Universe`) from `src/main.rs`.

The Rust `Vec<bool>` grid is a `List Bool` indexed by `row * width + col`;
the `VecDeque<Vec<bool>>` history is a `List (List Bool)` whose head is the
front of the deque (`pop_front` drops the head, `push_back` appends at the
end, `pop_back` removes the last element).  Signed Rust `isize` deltas are
`Int`; `usize` quantities are `Nat`.  `tick_back`'s `Result<&str, &str>` is
an `Except String String` returned next to the updated state.
-/

/-- Glyph for a dead, unselected cell (Rust `DEAD`). -/
def DEAD : String := "  "

/-- Glyph for a live, unselected cell (Rust `ALIVE`). -/
def ALIVE : String := "██"

/-- Border corner glyphs (Rust `CORNERS`). -/
def CORNERS : List Char := ['╔', '╗', '╝', '╚']

/-- Horizontal border glyph (Rust `BORDER_H`). -/
def BORDER_H : String := "══"

/-- Vertical border glyph (Rust `BORDER_V`). -/
def BORDER_V : Char := '║'

/-- Glyph for a dead cell under a visible cursor (Rust `SELECTED_DEAD`). -/
def SELECTED_DEAD : String := "░░"

/-- Glyph for a live cell under a visible cursor (Rust `SELECTED_ALIVE`). -/
def SELECTED_ALIVE : String := "▒▒"

/-- History capacity H (Rust `HISTORY_LEN`). -/
def HISTORY_LEN : Nat := 20

/-- State of the engine (Rust `struct Universe`).  `selected_cell` is the
cursor as a `(row, col)` pair. -/
structure Universe where
  width : Nat
  height : Nat
  cells : List Bool
  selected_cell : Nat × Nat
  show_cursor : Bool
  is_running : Bool
  history : List (List Bool)
  should_write_help : Bool
  deriving Repr, DecidableEq

namespace Universe

/-- Rust `Universe::new`. -/
def new (width height : Nat) : Universe :=
  { width := width
    height := height
    cells := List.replicate (width * height) false
    selected_cell := (0, 0)
    show_cursor := false
    is_running := false
    history := []
    should_write_help := true }

/-- Rust `Universe::get_index`: flat row-major index. -/
def get_index (u : Universe) (row column : Nat) : Nat :=
  row * u.width + column

/-- Rust `Universe::set_cells`: set each listed cell's flat index to `true`,
in list order. -/
def set_cells (u : Universe) (cs : List (Nat × Nat)) : Universe :=
  { u with cells := cs.foldl (fun cells p => cells.set (u.get_index p.1 p.2) true) u.cells }

/-- Rust `Universe::move_cursor`.  Each branch mirrors the source: a negative
delta whose magnitude exceeds the current coordinate takes the
`extent - ((magnitude - coordinate) % extent)` branch, a small negative delta
subtracts, and a non-negative delta adds and reduces modulo the extent. -/
def move_cursor (u : Universe) (r c : Int) : Universe :=
  let row0 := u.selected_cell.1
  let col0 := u.selected_cell.2
  let row1 :=
    if r < 0 then
      if r.natAbs > row0 then
        u.height - ((r.natAbs - row0) % u.height)
      else row0 - r.natAbs
    else (row0 + r.toNat) % u.height
  let col1 :=
    if c < 0 then
      if c.natAbs > col0 then
        u.width - ((c.natAbs - col0) % u.width)
      else col0 - c.natAbs
    else (col0 + c.toNat) % u.width
  { u with selected_cell := (row1, col1) }

/-- Rust `Universe::is_in_bounds`. -/
def is_in_bounds (u : Universe) (row col : Int) : Bool :=
  decide (row ≥ 0) && decide (row < (u.height : Int)) &&
  decide (col ≥ 0) && decide (col < (u.width : Int))

/-- Rust `Universe::get_cell`.  The Rust code indexes the backing vector
directly; in-bounds coordinates are a caller obligation, so the `getD`
default is never reached under that obligation. -/
def get_cell (u : Universe) (row col : Nat) : Bool :=
  u.cells.getD (u.get_index row col) false

/-- Rust `Universe::set_cell`. -/
def set_cell (u : Universe) (row col : Nat) (val : Bool) : Universe :=
  { u with cells := u.cells.set (u.get_index row col) val }

/-- Rust `Universe::live_neighbour_count`: fold over the 3×3 box around
`(row, col)` in signed coordinates, adding 1 for each in-bounds live cell
other than the centre. -/
def live_neighbour_count (u : Universe) (row col : Nat) : Nat :=
  let rowI : Int := (row : Int)
  let colI : Int := (col : Int)
  [rowI - 1, rowI, rowI + 1].foldl (fun ans r =>
    [colI - 1, colI, colI + 1].foldl (fun ans c =>
      if u.is_in_bounds r c = true ∧ ¬((r, c) = (rowI, colI)) then
        ans + (if u.get_cell r.toNat c.toNat then 1 else 0)
      else ans) ans) 0

/-- Rust next-state `match` inside `Universe::tick`, arm by arm. -/
def next_state (cell : Bool) (live_neighbours : Nat) : Bool :=
  if cell = true ∧ live_neighbours < 2 then false
  else if cell = true ∧ (live_neighbours = 2 ∨ live_neighbours = 3) then true
  else if cell = true ∧ live_neighbours > 3 then false
  else if cell = false ∧ live_neighbours = 3 then true
  else cell

/-- Rust `Universe::tick`: fill a fresh all-false buffer cell by cell from the
current grid, then push the pre-tick grid onto history (evicting the front
when at capacity) and commit the buffer. -/
def tick (u : Universe) : Universe :=
  let next :=
    (List.range u.height).foldl (fun next row =>
      (List.range u.width).foldl (fun next col =>
        next.set (u.get_index row col)
          (next_state (u.cells.getD (u.get_index row col) false)
            (u.live_neighbour_count row col))) next)
      (List.replicate (u.width * u.height) false)
  let history1 := if u.history.length ≥ HISTORY_LEN then u.history.tail else u.history
  { u with cells := next, history := history1 ++ [u.cells] }

/-- Rust `Universe::tick_back`: pop the most recent snapshot (back of the
deque) into the grid, or report that history is empty. -/
def tick_back (u : Universe) : Universe × Except String String :=
  match u.history.getLast? with
  | some x => ({ u with cells := x, history := u.history.dropLast }, .ok "Returned to previous step")
  | none => (u, .error "No more moves in history!")

/-- Rust `Universe::toggle_selected_cell`. -/
def toggle_selected_cell (u : Universe) : Universe :=
  u.set_cell u.selected_cell.1 u.selected_cell.2
    (!(u.get_cell u.selected_cell.1 u.selected_cell.2))

/-- Rust `Universe::clear`. -/
def clear (u : Universe) : Universe :=
  { u with cells := List.replicate (u.width * u.height) false }

end Universe

/-- Rust free function `write_title`: the banner, separator, and (when
requested) the help lines, with the `\r`/`\n\r` spacing of each `write!`. -/
def write_title (write_help : Bool) : String :=
  "\r" ++ "Game Of Life" ++ "\n\r" ++
  "------------" ++ "\n\r" ++
  (if write_help then
    "Controls:" ++ "\n\r" ++
    "* Arrow keys - move cursor" ++ "\n\r" ++
    "* Space - toggle cell" ++ "\n\r" ++
    "* R/S - [R]un / [S]top" ++ "\n\r" ++
    "* P/N - [P]rev/[N]ext" ++ "\n\r" ++
    "        (Single Step)" ++ "\n\r" ++
    "* C - [C]lear" ++ "\n\r" ++
    "* T - [T]oggle cursor" ++ "\n\r" ++
    "* E - [E]dit settings" ++ "\n\r" ++
    "------------" ++ "\n\r"
  else "")

/-- Glyph choice for one cell, mirroring the nested `if`s inside
`Universe::render`: the outer branch tests liveness, the inner branch tests
whether the visible cursor sits on this cell. -/
def cell_str (alive : Bool) (selected : Bool) : String :=
  if alive then (if selected then SELECTED_ALIVE else ALIVE)
  else (if selected then SELECTED_DEAD else DEAD)

/-- Rust `Universe::render`, as the string written to the sink: cursor-home,
clear-screen and hide-cursor escape sequences, the title, the top border, one
bordered line per row with one glyph pair per cell, and the bottom border. -/
def Universe.render (u : Universe) : String :=
  let s := "\x1b[1;1H" ++ "\x1b[2J" ++ "\x1b[?25l"
  let s := s ++ write_title u.should_write_help
  let s := s ++ String.singleton (CORNERS.get ⟨0, by decide⟩)
  let s := (List.range u.width).foldl (fun s _ => s ++ BORDER_H) s
  let s := s ++ String.singleton (CORNERS.get ⟨1, by decide⟩) ++ "\n\r"
  let s := (List.range u.height).foldl (fun s i =>
    let s := s ++ String.singleton BORDER_V
    let s := (List.range u.width).foldl (fun s j =>
      s ++ cell_str (u.cells.getD (u.get_index i j) false)
        (decide ((i, j) = u.selected_cell) && u.show_cursor)) s
    s ++ String.singleton BORDER_V ++ "\n\r") s
  let s := s ++ String.singleton (CORNERS.get ⟨3, by decide⟩)
  let s := (List.range u.width).foldl (fun s _ => s ++ BORDER_H) s
  s ++ String.singleton (CORNERS.get ⟨2, by decide⟩) ++ "\n\r"

/-- Positions of the 8 surrounding neighbours of `(row, col)` in signed
coordinates, written from the claim: the cell itself is not among them. -/
def spec_neighbours (row col : Nat) : List (Int × Int) :=
  [((row : Int) - 1, (col : Int) - 1),
   ((row : Int) - 1, (col : Int)),
   ((row : Int) - 1, (col : Int) + 1),
   ((row : Int), (col : Int) - 1),
   ((row : Int), (col : Int) + 1),
   ((row : Int) + 1, (col : Int) - 1),
   ((row : Int) + 1, (col : Int)),
   ((row : Int) + 1, (col : Int) + 1)]

/-- Claim-side liveness of a signed position: positions outside
`[0,width) × [0,height)` contribute nothing (no wraparound). -/
def spec_alive (u : Universe) (r c : Int) : Bool :=
  if 0 ≤ r ∧ r < (u.height : Int) ∧ 0 ≤ c ∧ c < (u.width : Int) then
    u.get_cell r.toNat c.toNat
  else false

/-- Claim-side neighbour count: the number of live cells among the 8
surrounding positions. -/
def spec_neighbour_count (u : Universe) (row col : Nat) : Nat :=
  ((spec_neighbours row col).map (fun p => if spec_alive u p.1 p.2 then 1 else 0)).sum

/-- Claim-side B3/S23 rule: a live cell survives exactly with 2 or 3 live
neighbours, a dead cell becomes alive exactly with 3, all else unchanged. -/
def spec_next_state (cell : Bool) (n : Nat) : Bool :=
  if cell = true then decide (n = 2 ∨ n = 3) else decide (n = 3)

/-- Engine operations of the public `Universe` API, for stating history
invariants over arbitrary operation sequences. -/
inductive Op where
  | tick
  | tick_back
  | clear
  | move_cursor (r c : Int)
  | toggle_selected_cell
  | set_cell (row col : Nat) (val : Bool)
  | set_cells (cs : List (Nat × Nat))
  deriving Repr, DecidableEq

/-- Effect of one operation on the state (`tick_back`'s status value is
dropped here; only the state matters for the invariant). -/
def Op.apply (u : Universe) : Op → Universe
  | .tick => u.tick
  | .tick_back => (u.tick_back).1
  | .clear => u.clear
  | .move_cursor r c => u.move_cursor r c
  | .toggle_selected_cell => u.toggle_selected_cell
  | .set_cell row col val => u.set_cell row col val
  | .set_cells cs => u.set_cells cs

/-- Whether an operation is a forward `tick`. -/
def Op.isTick : Op → Bool
  | .tick => true
  | _ => false

/-- Whether an operation is a `tick_back`. -/
def Op.isTickBack : Op → Bool
  | .tick_back => true
  | _ => false

/-- Run a sequence of operations left to right. -/
def apply_ops (u : Universe) (ops : List Op) : Universe :=
  ops.foldl Op.apply u

/-- Iterate `tick_back`, keeping only the state. -/
def tick_back_iter (u : Universe) : Nat → Universe
  | 0 => u
  | n + 1 => ((tick_back_iter u n).tick_back).1

/-! ## Helper lemmas about list reads and writes -/

/-- Reading a freshly written position. -/
lemma getD_set_self (l : List Bool) (i : Nat) (v : Bool) (h : i < l.length) :
    (l.set i v).getD i false = v := by
  simp [List.getD_eq_getElem?_getD, List.getElem?_set_self', List.getElem?_eq_getElem h]

/-- Reading a position other than the one written. -/
lemma getD_set_ne (l : List Bool) (i j : Nat) (v : Bool) (h : i ≠ j) :
    (l.set i v).getD j false = l.getD j false := by
  simp [List.getD_eq_getElem?_getD, List.getElem?_set_ne h]

/-- Reading any position of an all-false grid. -/
lemma getD_replicate_false (n i : Nat) : (List.replicate n false).getD i false = false := by
  simp [List.getD_eq_getElem?_getD, List.getElem?_replicate]
  split <;> rfl

/-- Row-major indices of in-bounds coordinates stay below the grid size. -/
lemma get_index_lt_size (w h row col : Nat) (hr : row < h) (hc : col < w) :
    row * w + col < w * h := by
  have h1 : row * w + col < (row + 1) * w := by
    have : (row + 1) * w = row * w + w := by ring
    omega
  have h2 : (row + 1) * w ≤ h * w := Nat.mul_le_mul_right w (by omega)
  have h3 : h * w = w * h := by ring
  omega

/-- Row-major indexing is injective on coordinates whose column is in
bounds. -/
lemma get_index_inj (w r1 c1 r2 c2 : Nat) (hc1 : c1 < w) (hc2 : c2 < w)
    (h : r1 * w + c1 = r2 * w + c2) : r1 = r2 ∧ c1 = c2 := by
  have hr : r1 = r2 := by
    by_contra hne
    rcases Nat.lt_or_ge r1 r2 with hlt | hge
    · have : (r1 + 1) * w ≤ r2 * w := Nat.mul_le_mul_right w (by omega)
      have : r1 * w + w ≤ r2 * w := by
        have e : (r1 + 1) * w = r1 * w + w := by ring
        omega
      omega
    · have hlt2 : r2 < r1 := by omega
      have : (r2 + 1) * w ≤ r1 * w := Nat.mul_le_mul_right w (by omega)
      have : r2 * w + w ≤ r1 * w := by
        have e : (r2 + 1) * w = r2 * w + w := by ring
        omega
      omega
  subst hr
  exact ⟨rfl, by omega⟩

/-- Folding `set _ true` over a list of write indices: position `j` ends up
true exactly when it started true or some listed index hits it. -/
lemma getD_foldl_set_true (idx : Nat × Nat → Nat) (cs : List (Nat × Nat))
    (cells : List Bool) (j : Nat) (hcs : ∀ p ∈ cs, idx p < cells.length) :
    (cs.foldl (fun cells p => cells.set (idx p) true) cells).getD j false
      = (cells.getD j false || cs.any (fun p => idx p == j)) := by
  induction cs generalizing cells with
  | nil => simp
  | cons p cs ih =>
    simp only [List.foldl_cons, List.any_cons]
    rw [ih (cells.set (idx p) true)
      (fun q hq => by rw [List.length_set]; exact hcs q (List.mem_cons_of_mem p hq))]
    by_cases hj : idx p = j
    · rw [hj, getD_set_self cells j true (hj ▸ hcs p (List.mem_cons_self p cs))]
      simp [hj]
    · rw [getD_set_ne cells (idx p) j true hj]
      have hb : (idx p == j) = false := by
        simp only [beq_eq_false_iff_ne, ne_eq]
        exact hj
      rw [hb]
      simp

/-- Dividing a row-major index by the width recovers the row. -/
lemma index_div (w row col : Nat) (hc : col < w) : (row * w + col) / w = row := by
  rw [Nat.add_comm, Nat.mul_comm]
  rw [Nat.add_mul_div_left col row (by omega : 0 < w)]
  rw [Nat.div_eq_of_lt hc]
  omega

/-- Reducing a row-major index modulo the width recovers the column. -/
lemma index_mod (w row col : Nat) (hc : col < w) : (row * w + col) % w = col := by
  rw [Nat.add_comm, Nat.mul_comm, Nat.add_mul_mod_self_left]
  exact Nat.mod_eq_of_lt hc

/-- Nested fold over rows and columns equals one fold over the flattened
list of coordinate pairs. -/
lemma foldl_foldl_pairs {α : Type} (f : α → Nat → Nat → α) (rows cols : List Nat) (init : α) :
    rows.foldl (fun a r => cols.foldl (fun a c => f a r c) a) init
      = (rows.flatMap (fun r => cols.map (fun c => (r, c)))).foldl (fun a p => f a p.1 p.2) init := by
  induction rows generalizing init with
  | nil => rfl
  | cons r rows ih =>
    simp only [List.foldl_cons, List.flatMap_cons, List.foldl_append, List.foldl_map]
    exact ih _

/-- Folding writes whose value is a function of the written index: position
`j` ends up holding `f j` when `j` is written at all, and keeps its old
content otherwise. -/
lemma getD_foldl_set_fn (f : Nat → Bool) (idxs : List Nat) (acc : List Bool) (j : Nat)
    (hj : j < acc.length) :
    (idxs.foldl (fun a i => a.set i (f i)) acc).getD j false
      = if j ∈ idxs then f j else acc.getD j false := by
  induction idxs generalizing acc with
  | nil => simp
  | cons i idxs ih =>
    simp only [List.foldl_cons, List.mem_cons]
    rw [ih (acc.set i (f i)) (by simpa using hj)]
    by_cases hmem : j ∈ idxs
    · rw [if_pos hmem, if_pos (Or.inr hmem)]
    · rw [if_neg hmem]
      by_cases hij : i = j
      · subst hij
        rw [getD_set_self acc i (f i) hj, if_pos (Or.inl rfl)]
      · rw [getD_set_ne acc i j (f i) hij, if_neg (by tauto)]

/-- Accumulator step of the neighbour count, pulled out of the accumulator. -/
lemma ite_acc_add (g : Prop) [inst : Decidable g] (acc x : Nat) :
    (if g then acc + x else acc) = acc + (if g then x else 0) := by
  split <;> simp

/-- One non-centre term of the code's neighbour fold equals the claim-side
per-position contribution. -/
lemma neighbour_term_eq (u : Universe) (r c rr cc : Int) (h : ¬(r = rr ∧ c = cc)) :
    (if u.is_in_bounds r c = true ∧ ¬((r, c) = (rr, cc)) then
        (if u.get_cell r.toNat c.toNat then (1 : Nat) else 0) else 0)
      = (if spec_alive u r c then 1 else 0) := by
  have hne : ¬((r, c) = (rr, cc)) := by
    simp only [Prod.mk.injEq]
    exact h
  have hb : (u.is_in_bounds r c = true) ↔
      (0 ≤ r ∧ r < (u.height : Int) ∧ 0 ≤ c ∧ c < (u.width : Int)) := by
    simp [Universe.is_in_bounds, and_assoc, ge_iff_le]
  by_cases hB : 0 ≤ r ∧ r < (u.height : Int) ∧ 0 ≤ c ∧ c < (u.width : Int)
  · simp [spec_alive, hb, hB, hne]
  · simp [spec_alive, hb.not, hB, hne]

/-- The code's bounding-box neighbour fold computes exactly the claim-side
count over the 8 surrounding positions. -/
lemma live_eq_spec (u : Universe) (row col : Nat) :
    u.live_neighbour_count row col = spec_neighbour_count u row col := by
  simp only [Universe.live_neighbour_count, spec_neighbour_count, spec_neighbours,
    List.foldl_cons, List.foldl_nil, List.map_cons, List.map_nil, List.sum_cons, List.sum_nil]
  simp only [ite_acc_add]
  rw [neighbour_term_eq u ((row : Int) - 1) ((col : Int) - 1) row col (by intro hx; omega),
    neighbour_term_eq u ((row : Int) - 1) ((col : Int)) row col (by intro hx; omega),
    neighbour_term_eq u ((row : Int) - 1) ((col : Int) + 1) row col (by intro hx; omega),
    neighbour_term_eq u ((row : Int)) ((col : Int) - 1) row col (by intro hx; omega),
    neighbour_term_eq u ((row : Int)) ((col : Int) + 1) row col (by intro hx; omega),
    neighbour_term_eq u ((row : Int) + 1) ((col : Int) - 1) row col (by intro hx; omega),
    neighbour_term_eq u ((row : Int) + 1) ((col : Int)) row col (by intro hx; omega),
    neighbour_term_eq u ((row : Int) + 1) ((col : Int) + 1) row col (by intro hx; omega)]
  simp only [eq_self_iff_true, not_true, and_false, if_false, and_true]
  ring

/-- The code's `match` arms implement exactly the claim-side B3/S23 rule. -/
lemma next_state_eq_spec (cell : Bool) (n : Nat) :
    Universe.next_state cell n = spec_next_state cell n := by
  cases cell <;> simp only [Universe.next_state, spec_next_state] <;> split_ifs <;>
    simp_all <;> omega

/-! ## Claim theorems: cursor movement (C1, C6) -/

/-- C1: the claim fails on the code.  On a 3×3 universe with the cursor at
the in-bounds position (0, 0), `move_cursor (-3) 0` should land on
((0 - 3) mod 3, 0) = (0, 0) by the claimed true-modulo semantics, but the
code's `height - ((|r| - row) % height)` branch yields row `3 = height`,
which is outside the grid bounds. -/
theorem C1_move_cursor_escapes_bounds :
    ((Universe.new 3 3).move_cursor (-3) 0).selected_cell = (3, 0) ∧
    ¬(((Universe.new 3 3).move_cursor (-3) 0).selected_cell.1 <
        ((Universe.new 3 3).move_cursor (-3) 0).height) ∧
    Int.emod (0 + -3) 3 = 0 := by decide

/-- C6: the claim fails on the code.  On a 3×3 universe,
`move_cursor (-1) 0` then `move_cursor (-2) 0` leaves the cursor at (0, 0),
while the single summed call `move_cursor (-3) 0` leaves it at (3, 0), so the
two-step composition differs from the one-step call with summed deltas. -/
theorem C6_move_cursor_not_additive :
    (((Universe.new 3 3).move_cursor (-1) 0).move_cursor (-2) 0).selected_cell = (0, 0) ∧
    ((Universe.new 3 3).move_cursor ((-1) + (-2)) (0 + 0)).selected_cell = (3, 0) ∧
    (((Universe.new 3 3).move_cursor (-1) 0).move_cursor (-2) 0).selected_cell ≠
      ((Universe.new 3 3).move_cursor ((-1) + (-2)) (0 + 0)).selected_cell := by decide

/-! ## Helper lemmas about history sizes -/

/-- Undo removes exactly one snapshot (or nothing when empty). -/
lemma tb_len (u : Universe) :
    ((u.tick_back).1).history.length = u.history.length - 1 := by
  rcases hx : u.history.getLast? with _ | x
  · have h0 : u.history = [] := List.getLast?_eq_none_iff.mp hx
    simp [Universe.tick_back, hx, h0]
  · simp [Universe.tick_back, hx, List.length_dropLast]

/-- Undo succeeds whenever the history is non-empty. -/
lemma tb_ok (u : Universe) (h : 0 < u.history.length) :
    (u.tick_back).2 = Except.ok "Returned to previous step" := by
  rcases hx : u.history.getLast? with _ | x
  · have h0 : u.history = [] := List.getLast?_eq_none_iff.mp hx
    rw [h0] at h
    simp at h
  · simp [Universe.tick_back, hx]

/-- Undo reports "no history" exactly on an empty history. -/
lemma tb_err (u : Universe) (h : u.history.length = 0) :
    (u.tick_back).2 = Except.error "No more moves in history!" := by
  have h0 : u.history = [] := List.length_eq_zero.mp h
  simp [Universe.tick_back, h0]

/-- Size of the history after one tick, under the capacity invariant. -/
lemma tick_hist_len (u : Universe) (hle : u.history.length ≤ HISTORY_LEN) :
    (u.tick).history.length = min (u.history.length + 1) HISTORY_LEN := by
  by_cases hge : u.history.length ≥ HISTORY_LEN
  · simp only [HISTORY_LEN] at hge hle ⊢
    simp [Universe.tick, HISTORY_LEN, hge]
    omega
  · simp only [HISTORY_LEN] at hge hle ⊢
    simp [Universe.tick, HISTORY_LEN, hge]
    omega

/-- Operations other than `tick` and `tick_back` do not touch the history. -/
lemma apply_hist_other (u : Universe) (op : Op)
    (h1 : op.isTick = false) (h2 : op.isTickBack = false) :
    (op.apply u).history = u.history := by
  cases op <;> simp_all [Op.apply, Op.isTick, Op.isTickBack, Universe.clear,
    Universe.move_cursor, Universe.toggle_selected_cell, Universe.set_cell,
    Universe.set_cells]

/-- Every operation preserves the history-capacity invariant. -/
lemma apply_hist_le (u : Universe) (op : Op) (hle : u.history.length ≤ HISTORY_LEN) :
    (op.apply u).history.length ≤ HISTORY_LEN := by
  by_cases ht : op.isTick = true
  · have hop : op = Op.tick := by cases op <;> simp_all [Op.isTick]
    subst hop
    show (u.tick).history.length ≤ HISTORY_LEN
    rw [tick_hist_len u hle]
    omega
  · by_cases hb : op.isTickBack = true
    · have hop : op = Op.tick_back := by cases op <;> simp_all [Op.isTickBack]
      subst hop
      show ((u.tick_back).1).history.length ≤ HISTORY_LEN
      rw [tb_len]
      omega
    · rw [apply_hist_other u op (by simpa using ht) (by simpa using hb)]
      exact hle

/-- Size of the history after a tick_back-free operation sequence: the tick
count accumulates until it saturates at capacity. -/
lemma apply_ops_hist_len (ops : List Op) (u : Universe)
    (hnb : ∀ op ∈ ops, op.isTickBack = false)
    (hle : u.history.length ≤ HISTORY_LEN) :
    (apply_ops u ops).history.length
      = min (u.history.length + ops.countP Op.isTick) HISTORY_LEN := by
  induction ops generalizing u with
  | nil =>
    simp only [apply_ops, List.foldl_nil, List.countP_nil, Nat.add_zero]
    omega
  | cons op ops ih =>
    have hle2 : (op.apply u).history.length ≤ HISTORY_LEN := apply_hist_le u op hle
    have step : apply_ops u (op :: ops) = apply_ops (op.apply u) ops := rfl
    rw [step, ih (op.apply u) (fun q hq => hnb q (List.mem_cons_of_mem _ hq)) hle2]
    by_cases ht : op.isTick = true
    · have hop : op = Op.tick := by cases op <;> simp_all [Op.isTick]
      subst hop
      have : (Op.tick.apply u) = u.tick := rfl
      rw [this, tick_hist_len u hle]
      simp [List.countP_cons, Op.isTick]
      omega
    · have hne : op.isTick = false := by simpa using ht
      rw [apply_hist_other u op hne (hnb op (List.mem_cons_self op ops))]
      simp [List.countP_cons, hne]

/-- Iterated undo removes one snapshot per step. -/
lemma tick_back_iter_len (u : Universe) (n : Nat) :
    (tick_back_iter u n).history.length = u.history.length - n := by
  induction n with
  | zero => rfl
  | succ n ih =>
    show ((tick_back_iter u n).tick_back).1.history.length = u.history.length - (n + 1)
    rw [tb_len, ih]
    omega

/-! ## Claim theorem: the step rule (C2) -/

/-- C2: for every in-bounds cell, `tick` writes into the fresh buffer the
B3/S23 next state of that cell computed from the pre-tick grid alone, where
the neighbour count ranges over the 8 surrounding positions, drops positions
outside the grid (no wraparound), and never counts the cell itself. -/
theorem C2_tick_rule (u : Universe) (row col : Nat)
    (hr : row < u.height) (hc : col < u.width) :
    (u.tick).cells.getD (u.get_index row col) false
      = spec_next_state (u.get_cell row col) (spec_neighbour_count u row col) ∧
    u.live_neighbour_count row col = spec_neighbour_count u row col := by
  refine ⟨?_, live_eq_spec u row col⟩
  have hjlt : u.get_index row col < (List.replicate (u.width * u.height) false).length := by
    simpa [Universe.get_index] using get_index_lt_size u.width u.height row col hr hc
  have e1 : (u.tick).cells
      = ((List.range u.height).flatMap (fun r => (List.range u.width).map (fun c => (r, c)))).foldl
          (fun a p => a.set (u.get_index p.1 p.2)
            (Universe.next_state (u.cells.getD (u.get_index p.1 p.2) false)
              (u.live_neighbour_count p.1 p.2)))
          (List.replicate (u.width * u.height) false) :=
    foldl_foldl_pairs
      (fun a r c => a.set (u.get_index r c)
        (Universe.next_state (u.cells.getD (u.get_index r c) false)
          (u.live_neighbour_count r c)))
      (List.range u.height) (List.range u.width)
      (List.replicate (u.width * u.height) false)
  have e2 : ((List.range u.height).flatMap (fun r => (List.range u.width).map (fun c => (r, c)))).foldl
          (fun a p => a.set (u.get_index p.1 p.2)
            (Universe.next_state (u.cells.getD (u.get_index p.1 p.2) false)
              (u.live_neighbour_count p.1 p.2)))
          (List.replicate (u.width * u.height) false)
      = ((List.range u.height).flatMap (fun r => (List.range u.width).map (fun c => (r, c)))).foldl
          (fun a p => a.set (u.get_index p.1 p.2)
            (Universe.next_state (u.cells.getD (u.get_index p.1 p.2) false)
              (u.live_neighbour_count ((u.get_index p.1 p.2) / u.width)
                ((u.get_index p.1 p.2) % u.width))))
          (List.replicate (u.width * u.height) false) := by
    apply List.foldl_ext
    intro a p hp
    simp only [List.mem_flatMap, List.mem_map, List.mem_range] at hp
    obtain ⟨r, hrh, c, hcw, hpc⟩ := hp
    subst hpc
    simp only [Universe.get_index]
    rw [index_div u.width r c hcw, index_mod u.width r c hcw]
  have e3 : ((List.range u.height).flatMap (fun r => (List.range u.width).map (fun c => (r, c)))).foldl
          (fun a p => a.set (u.get_index p.1 p.2)
            (Universe.next_state (u.cells.getD (u.get_index p.1 p.2) false)
              (u.live_neighbour_count ((u.get_index p.1 p.2) / u.width)
                ((u.get_index p.1 p.2) % u.width))))
          (List.replicate (u.width * u.height) false)
      = (((List.range u.height).flatMap (fun r => (List.range u.width).map (fun c => (r, c)))).map
            (fun p => u.get_index p.1 p.2)).foldl
          (fun a i => a.set i
            (Universe.next_state (u.cells.getD i false)
              (u.live_neighbour_count (i / u.width) (i % u.width))))
          (List.replicate (u.width * u.height) false) :=
    (List.foldl_map (fun p : Nat × Nat => u.get_index p.1 p.2)
      (fun a i => a.set i
        (Universe.next_state (u.cells.getD i false)
          (u.live_neighbour_count (i / u.width) (i % u.width))))
      ((List.range u.height).flatMap (fun r => (List.range u.width).map (fun c => (r, c))))
      (List.replicate (u.width * u.height) false)).symm
  have hmem : u.get_index row col
      ∈ (((List.range u.height).flatMap (fun r => (List.range u.width).map (fun c => (r, c)))).map
          (fun p => u.get_index p.1 p.2)) := by
    refine List.mem_map.mpr ⟨(row, col), ?_, rfl⟩
    simp only [List.mem_flatMap, List.mem_map, List.mem_range]
    exact ⟨row, hr, col, hc, rfl⟩
  rw [e1, e2, e3,
    getD_foldl_set_fn
      (fun i => Universe.next_state (u.cells.getD i false)
        (u.live_neighbour_count (i / u.width) (i % u.width)))
      _ _ _ hjlt,
    if_pos hmem]
  simp only [Universe.get_index]
  rw [index_div u.width row col hc, index_mod u.width row col hc]
  rw [next_state_eq_spec, live_eq_spec]
  rfl

/-- Witness for C2 on a 4×4 universe holding a horizontal blinker, at the
centre cell of the oscillator. -/
theorem C2_witness :
    1 < ((Universe.new 4 4).set_cells [(1, 0), (1, 1), (1, 2)]).height ∧
    1 < ((Universe.new 4 4).set_cells [(1, 0), (1, 1), (1, 2)]).width ∧
    (((Universe.new 4 4).set_cells [(1, 0), (1, 1), (1, 2)]).tick).cells.getD
        (((Universe.new 4 4).set_cells [(1, 0), (1, 1), (1, 2)]).get_index 1 1) false
      = spec_next_state
          (((Universe.new 4 4).set_cells [(1, 0), (1, 1), (1, 2)]).get_cell 1 1)
          (spec_neighbour_count ((Universe.new 4 4).set_cells [(1, 0), (1, 1), (1, 2)]) 1 1) :=
  ⟨by decide, by decide,
   (C2_tick_rule ((Universe.new 4 4).set_cells [(1, 0), (1, 1), (1, 2)]) 1 1
     (by decide) (by decide)).1⟩

/-! ## Claim theorems: undo history (C3, C4) -/

/-- C3: when the history is below capacity, `tick` followed by `tick_back`
succeeds and restores exactly the pre-tick grid (and the pre-tick history,
since `tick_back` pops the very snapshot `tick` pushed). -/
theorem C3_tick_then_tick_back (u : Universe) (h : u.history.length < HISTORY_LEN) :
    (u.tick.tick_back).1.cells = u.cells ∧
    (u.tick.tick_back).1.history = u.history ∧
    (u.tick.tick_back).2 = Except.ok "Returned to previous step" := by
  have hge : ¬ u.history.length ≥ HISTORY_LEN := by omega
  simp [Universe.tick, Universe.tick_back, hge, List.getLast?_concat]

/-- Witness for C3 at a concrete 2×2 universe with empty history. -/
theorem C3_witness :
    (Universe.new 2 2).history.length < HISTORY_LEN ∧
    ((Universe.new 2 2).tick.tick_back).1.cells = (Universe.new 2 2).cells :=
  ⟨by decide, (C3_tick_then_tick_back (Universe.new 2 2) (by decide)).1⟩

/-- C4: with empty history `tick_back` returns the distinct "no history"
error value and the whole state unchanged; with non-empty history it returns
the success value, drops the most recent snapshot from history, and installs
that snapshot as the current grid. -/
theorem C4_tick_back_result (u : Universe) :
    (u.history = [] → u.tick_back = (u, Except.error "No more moves in history!")) ∧
    (u.history ≠ [] →
      (u.tick_back).2 = Except.ok "Returned to previous step" ∧
      (u.tick_back).1.history = u.history.dropLast ∧
      u.history.getLast? = some (u.tick_back).1.cells) := by
  constructor
  · intro h
    simp [Universe.tick_back, h]
  · intro h
    rcases hx : u.history.getLast? with _ | x
    · exact absurd (List.getLast?_eq_none_iff.mp hx) h
    · simp [Universe.tick_back, hx]

/-- Witness for C4: the empty-history branch on a fresh universe, and the
non-empty branch right after one tick. -/
theorem C4_witness :
    (Universe.new 2 2).tick_back = (Universe.new 2 2, Except.error "No more moves in history!") ∧
    (((Universe.new 2 2).tick).tick_back).2 = Except.ok "Returned to previous step" :=
  ⟨(C4_tick_back_result (Universe.new 2 2)).1 rfl,
   ((C4_tick_back_result ((Universe.new 2 2).tick)).2 (by decide)).1⟩

/-! ## Claim theorem: history capacity (C5) -/

/-- C5: `HISTORY_LEN` is 20, every API operation preserves the history-size
bound, and after any tick_back-free operation sequence containing `H + k`
ticks the history holds exactly `H` snapshots, so the first `H` undo calls
succeed and the next one reports "no history". -/
theorem C5_history_capacity (u : Universe) (ops : List Op) (k : Nat)
    (hle : u.history.length ≤ HISTORY_LEN)
    (hnb : ∀ op ∈ ops, op.isTickBack = false)
    (hcount : ops.countP Op.isTick = HISTORY_LEN + k) :
    HISTORY_LEN = 20 ∧
    (∀ (v : Universe) (op : Op), v.history.length ≤ HISTORY_LEN →
      (op.apply v).history.length ≤ HISTORY_LEN) ∧
    (apply_ops u ops).history.length = HISTORY_LEN ∧
    (∀ j, j < HISTORY_LEN →
      ((tick_back_iter (apply_ops u ops) j).tick_back).2
        = Except.ok "Returned to previous step") ∧
    ((tick_back_iter (apply_ops u ops) HISTORY_LEN).tick_back).2
      = Except.error "No more moves in history!" := by
  have hlen : (apply_ops u ops).history.length = HISTORY_LEN := by
    rw [apply_ops_hist_len ops u hnb hle, hcount]
    simp [HISTORY_LEN]
    omega
  refine ⟨rfl, fun v op h => apply_hist_le v op h, hlen, ?_, ?_⟩
  · intro j hj
    apply tb_ok
    rw [tick_back_iter_len, hlen]
    simp [HISTORY_LEN] at *
    omega
  · apply tb_err
    rw [tick_back_iter_len, hlen]
    omega

/-- Witness for C5: twenty ticks on a 1×1 universe, then the undo budget. -/
theorem C5_witness :
    (apply_ops (Universe.new 1 1) (List.replicate 20 Op.tick)).history.length = HISTORY_LEN ∧
    ((tick_back_iter (apply_ops (Universe.new 1 1) (List.replicate 20 Op.tick))
        HISTORY_LEN).tick_back).2 = Except.error "No more moves in history!" := by
  have h := C5_history_capacity (Universe.new 1 1) (List.replicate 20 Op.tick) 0
    (by decide) (by decide) (by decide)
  exact ⟨h.2.2.1, h.2.2.2.2⟩

/-! ## Claim theorem: render (C9) -/

/-- C9: `render` is a pure read of the state: two states agreeing on the
fields `render` consults (cells, cursor, cursor visibility, dimensions, help
flag) produce byte-identical frames — in particular the embedding mutates
nothing — and each cell is drawn as one of four pairwise distinct glyph
pairs selected exactly by the pair (alive, cursor-here-and-visible). -/
theorem C9_render_pure (u v : Universe)
    (h1 : u.cells = v.cells) (h2 : u.selected_cell = v.selected_cell)
    (h3 : u.show_cursor = v.show_cursor) (h4 : u.width = v.width)
    (h5 : u.height = v.height) (h6 : u.should_write_help = v.should_write_help) :
    u.render = v.render ∧
    cell_str true true = SELECTED_ALIVE ∧
    cell_str true false = ALIVE ∧
    cell_str false true = SELECTED_DEAD ∧
    cell_str false false = DEAD ∧
    SELECTED_ALIVE ≠ ALIVE ∧ SELECTED_ALIVE ≠ SELECTED_DEAD ∧ SELECTED_ALIVE ≠ DEAD ∧
    ALIVE ≠ SELECTED_DEAD ∧ ALIVE ≠ DEAD ∧ SELECTED_DEAD ≠ DEAD := by
  refine ⟨?_, rfl, rfl, rfl, rfl,
    by decide, by decide, by decide, by decide, by decide, by decide⟩
  simp only [Universe.render, Universe.get_index]
  rw [h1, h2, h3, h4, h5, h6]

/-- Witness for C9: two states that differ in `is_running` and history but
agree on everything `render` reads produce the same frame. -/
theorem C9_witness :
    (Universe.new 2 2).render = { Universe.new 2 2 with is_running := true }.render ∧
    cell_str true true = SELECTED_ALIVE := by
  have h := C9_render_pure (Universe.new 2 2) { Universe.new 2 2 with is_running := true }
    rfl rfl rfl rfl rfl rfl
  exact ⟨h.1, h.2.1⟩

/-! ## Claim theorem: clear (C7) -/

/-- C7: `clear` makes every cell dead and leaves the cursor, both mode
flags, the dimensions, and the history (hence its depth) untouched. -/
theorem C7_clear_frame (u : Universe) :
    (u.clear).cells = List.replicate (u.width * u.height) false ∧
    (∀ i, (u.clear).cells.getD i false = false) ∧
    (u.clear).selected_cell = u.selected_cell ∧
    (u.clear).show_cursor = u.show_cursor ∧
    (u.clear).is_running = u.is_running ∧
    (u.clear).width = u.width ∧
    (u.clear).height = u.height ∧
    (u.clear).history = u.history := by
  refine ⟨rfl, ?_, rfl, rfl, rfl, rfl, rfl, rfl⟩
  intro i
  exact getD_replicate_false _ i

/-! ## Claim theorem: set_cells (C8) -/

/-- C8: `set_cells` turns every listed in-bounds cell alive, leaves every
other in-bounds cell exactly as it was (in particular it never kills a live
cell), and does not touch the cursor, the mode flags, the history, or the
dimensions. -/
theorem C8_set_cells_or (u : Universe) (cs : List (Nat × Nat))
    (hin : ∀ p ∈ cs, p.1 < u.height ∧ p.2 < u.width)
    (hlen : u.cells.length = u.width * u.height) :
    (∀ p ∈ cs, (u.set_cells cs).get_cell p.1 p.2 = true) ∧
    (∀ row col, row < u.height → col < u.width → (row, col) ∉ cs →
      (u.set_cells cs).get_cell row col = u.get_cell row col) ∧
    (∀ row col, u.get_cell row col = true →
      (u.set_cells cs).get_cell row col = true) ∧
    (u.set_cells cs).selected_cell = u.selected_cell ∧
    (u.set_cells cs).show_cursor = u.show_cursor ∧
    (u.set_cells cs).is_running = u.is_running ∧
    (u.set_cells cs).history = u.history ∧
    (u.set_cells cs).width = u.width ∧
    (u.set_cells cs).height = u.height := by
  have hcs : ∀ p ∈ cs, (fun p : Nat × Nat => u.get_index p.1 p.2) p < u.cells.length := by
    intro p hp
    have := hin p hp
    simpa [Universe.get_index, hlen] using
      get_index_lt_size u.width u.height p.1 p.2 this.1 this.2
  have key : ∀ j, (u.set_cells cs).cells.getD j false
      = (u.cells.getD j false || cs.any (fun p => u.get_index p.1 p.2 == j)) := by
    intro j
    simpa [Universe.set_cells] using
      getD_foldl_set_true (fun p => u.get_index p.1 p.2) cs u.cells j hcs
  refine ⟨?_, ?_, ?_, rfl, rfl, rfl, rfl, rfl, rfl⟩
  · intro p hp
    have : (u.set_cells cs).get_cell p.1 p.2
        = (u.cells.getD (u.get_index p.1 p.2) false ||
            cs.any (fun q => u.get_index q.1 q.2 == u.get_index p.1 p.2)) := by
      simpa [Universe.get_cell, Universe.set_cells, Universe.get_index] using
        key (u.get_index p.1 p.2)
    rw [this]
    have hany : cs.any (fun q => u.get_index q.1 q.2 == u.get_index p.1 p.2) = true := by
      rw [List.any_eq_true]
      exact ⟨p, hp, by simp⟩
    simp [hany]
  · intro row col hr hc hnot
    have : (u.set_cells cs).get_cell row col
        = (u.cells.getD (u.get_index row col) false ||
            cs.any (fun q => u.get_index q.1 q.2 == u.get_index row col)) := by
      simpa [Universe.get_cell, Universe.set_cells, Universe.get_index] using
        key (u.get_index row col)
    rw [this]
    have hany : cs.any (fun q => u.get_index q.1 q.2 == u.get_index row col) = false := by
      rw [List.any_eq_false]
      intro q hq
      simp only [beq_iff_eq]
      intro heq
      have hqin := hin q hq
      have := get_index_inj u.width q.1 q.2 row col hqin.2 hc
        (by simpa [Universe.get_index] using heq)
      exact hnot (by rw [← this.1, ← this.2]; exact hq)
    simp [hany, Universe.get_cell]
  · intro row col halive
    have : (u.set_cells cs).get_cell row col
        = (u.cells.getD (u.get_index row col) false ||
            cs.any (fun q => u.get_index q.1 q.2 == u.get_index row col)) := by
      simpa [Universe.get_cell, Universe.set_cells, Universe.get_index] using
        key (u.get_index row col)
    rw [this]
    have hcur : u.cells.getD (u.get_index row col) false = true := halive
    rw [hcur]
    simp

/-- Witness for C8 on a concrete 2×2 universe seeding one cell. -/
theorem C8_witness :
    (∀ p ∈ [((0 : Nat), (1 : Nat))], p.1 < (Universe.new 2 2).height ∧ p.2 < (Universe.new 2 2).width) ∧
    ((Universe.new 2 2).set_cells [(0, 1)]).get_cell 0 1 = true :=
  ⟨by decide,
   (C8_set_cells_or (Universe.new 2 2) [(0, 1)] (by decide) (by decide)).1
     (0, 1) (List.mem_singleton.mpr rfl)⟩

/-! ## Claim theorem: flat-index aliasing (C10) -/

/-- C10: the flat index `row * width + col` does not reject a column-bound
violation: on any grid with `width ≥ 1` and `height ≥ 2`, the out-of-bounds
coordinate (0, width) aliases the in-bounds cell (1, 0), so `get_cell`
silently reads that other cell and `set_cell` silently overwrites it. -/
theorem C10_flat_index_aliasing (u : Universe)
    (hw : 1 ≤ u.width) (hh : 2 ≤ u.height)
    (hlen : u.cells.length = u.width * u.height) :
    u.get_index 0 u.width = u.get_index 1 0 ∧
    u.get_cell 0 u.width = u.get_cell 1 0 ∧
    (u.set_cell 0 u.width true).get_cell 1 0 = true := by
  have hidx : u.get_index 0 u.width = u.get_index 1 0 := by
    simp [Universe.get_index]
  refine ⟨hidx, ?_, ?_⟩
  · simp [Universe.get_cell, hidx]
  · simp only [Universe.set_cell, Universe.get_cell, Universe.get_index,
      Nat.zero_mul, Nat.one_mul, Nat.zero_add, Nat.add_zero]
    apply getD_set_self
    rw [hlen]
    nlinarith

/-- Witness for C10 on a concrete 2×2 universe. -/
theorem C10_witness :
    1 ≤ (Universe.new 2 2).width ∧ 2 ≤ (Universe.new 2 2).height ∧
    ((Universe.new 2 2).set_cell 0 (Universe.new 2 2).width true).get_cell 1 0 = true :=
  ⟨by decide, by decide,
   (C10_flat_index_aliasing (Universe.new 2 2) (by decide) (by decide) (by decide)).2.2⟩
